import Mathlib

/-!
Shallow embedding of `src/script.js` (a single-page Jeopardy game) and proofs
about its data-acquisition pipeline and reveal state machine.

The DOM / rendering layer is out of scope; we model the in-memory
`categories` structure, the acquisition functions `getCategoryIds` and
`getCategory`, the click handler `handleClick`, and the lifecycle entry point
`setupAndStart`. Network calls (`axios.get`) are modelled as oracle functions
returning `Option` (`none` = rejected promise); the randomness of
`Math.random` and `_.sampleSize` is modelled by an explicit choice-of-indices
parameter constrained by the documented lodash semantics.
-/

namespace Jeopardy

/-- `const NUM_CATEGORIES = 6;` in `script.js`. -/
def NUM_CATEGORIES : Nat := 6

/-- `const NUM_CLUES = 5;` in `script.js`. -/
def NUM_CLUES : Nat := 5

/-- The values the `showing` property of a clue takes in `script.js`:
`null`, `'question'`, `'answer'`. -/
inductive Showing where
  | hidden
  | question
  | answer
  deriving DecidableEq, Repr

/-- A clue record `{question, answer, showing}` as stored in `categories`. -/
structure Clue where
  question : String
  answer : String
  showing : Showing
  deriving DecidableEq, Repr

/-- A category record `{title, clues}` as stored in `categories`. -/
structure Category where
  title : String
  clues : List Clue
  deriving DecidableEq, Repr

/-- A raw clue as returned by `GET /api/category` (`response.data.clues[k]`).
The jservice payload carries extra fields (`id`, `value`, ...) beyond
`question` and `answer`; `getCategory` discards them. -/
structure RawClue where
  id : Nat
  value : Nat
  question : String
  answer : String
  deriving DecidableEq, Repr

/-- A raw category payload as returned by `GET /api/category`
(`response.data`): a title and a clue list. -/
structure RawCategory where
  id : Nat
  title : String
  clues : List RawClue
  deriving DecidableEq, Repr

/-- A candidate category as returned by `GET /api/categories`
(`response.data[k]`); only its `id` is used by `getCategoryIds`. -/
structure Candidate where
  id : Nat
  title : String
  deriving DecidableEq, Repr

/-- The projection applied by `getCategory` to each raw clue:
`clue => ({question: clue.question, answer: clue.answer, showing: null})`. -/
def projectClue (c : RawClue) : Clue :=
  { question := c.question, answer := c.answer, showing := Showing.hidden }

/-- `_.chunk(response.data.clues, NUM_CLUES)[0]` as used in `getCategory`:
lodash splits the list into groups of `NUM_CLUES`, and `[0]` is the first
group, i.e. the first `NUM_CLUES` elements in order. On an empty list
`_.chunk` returns `[]`, so `[0]` is `undefined` and the subsequent `.map`
call throws — modelled by `none`. -/
def chunkFirst (clues : List RawClue) : Option (List RawClue) :=
  if clues.isEmpty then none else some (clues.take NUM_CLUES)

/-- `async function getCategory(categoryIdArray)`: loops over the id array,
awaits `axios.get('/api/category', {id})` for each id (the oracle `fetch`;
`none` models a rejected request), takes the first `NUM_CLUES` clues via
`_.chunk(...)[0]`, projects them, and pushes the category onto the global
`categories` array. A rejected request (or the throw on an empty clue list)
rejects the whole promise, leaving the global array at its partially-pushed
state: `Except.error` carries that partial array. -/
def getCategory (fetch : Nat → Option RawCategory) :
    List Nat → List Category → Except (List Category) (List Category)
  | [], categories => Except.ok categories
  | id :: rest, categories =>
    match fetch id with
    | none => Except.error categories
    | some resp =>
      match chunkFirst resp.clues with
      | none => Except.error categories
      | some randomClues =>
        getCategory fetch rest
          (categories ++ [{ title := resp.title, clues := randomClues.map projectClue }])

/-- `_.sampleSize(response.data, NUM_CATEGORIES)` as used in
`getCategoryIds`: lodash takes `n` random elements of the collection,
without replacement, up to the collection's size. We model the random draw
by an explicit list `pick` of chosen positions; `ValidPick` below states the
lodash guarantee on that list. -/
def sampleSize (batch : List Candidate) (pick : List Nat) : List Candidate :=
  pick.filterMap (fun i => batch[i]?)

/-- The guarantee lodash `_.sampleSize(coll, n)` gives about the positions it
draws: distinct positions, all in range, exactly `min n coll.length` of
them. -/
def ValidPick (pick : List Nat) (len n : Nat) : Prop :=
  pick.Nodup ∧ (∀ i ∈ pick, i < len) ∧ pick.length = min n len

/-- The id-selection part of `async function getCategoryIds()`: awaits
`axios.get('/api/categories', ...)` (the oracle `candidates`; `none` models
a rejected request, which rejects the whole promise), samples
`NUM_CATEGORIES` of the returned candidates and maps them to their ids
(`randomArray.map(category => category.id)`). -/
def selectCategoryIds (candidates : Option (List Candidate)) (pick : List Nat) :
    Option (List Nat) :=
  candidates.map (fun batch => (sampleSize batch pick).map (fun c => c.id))

/-- `async function getCategoryIds()` in full: select ids as above, then
`await getCategory(ids)` against the global `categories` array. -/
def getCategoryIds (candidates : Option (List Candidate)) (pick : List Nat)
    (fetch : Nat → Option RawCategory) (categories : List Category) :
    Except (List Category) (List Category) :=
  match candidates with
  | none => Except.error categories
  | some batch =>
    getCategory fetch ((sampleSize batch pick).map (fun c => c.id)) categories

/-- The observable state mutated by `setupAndStart`: the global `categories`
array, whether `fillTable()` has populated the board, and how many times the
failure `alert` has fired. -/
structure AppState where
  categories : List Category
  boardFilled : Bool
  alerts : Nat
  deriving DecidableEq, Repr

/-- `function setupAndStart()`: empties the board and the global
`categories`, runs `getCategoryIds()`; on resolution calls `fillTable()`
(board filled from the now-populated global array), on rejection fires the
`alert` in the `.catch` handler once and fills nothing. -/
def setupAndStart (candidates : Option (List Candidate)) (pick : List Nat)
    (fetch : Nat → Option RawCategory) (s : AppState) : AppState :=
  match getCategoryIds candidates pick fetch [] with
  | Except.ok cats => { categories := cats, boardFilled := true, alerts := s.alerts }
  | Except.error cs => { categories := cs, boardFilled := false, alerts := s.alerts + 1 }

/-- `categories[categoryId].clues[clueId]` — the clue lookup performed by
`handleClick`; `none` when either index is out of range (in JS the
subsequent property access throws a `TypeError`). -/
def clueAt (categories : List Category) (i j : Nat) : Option Clue :=
  (categories[i]?).bind (fun cat => cat.clues[j]?)

/-- `function handleClick(e)`, with the DOM-derived indices made explicit:
`clueId` is the row id (clue index) and `categoryId` the `data-category`
attribute (category index). Looks up
`categories[categoryId].clues[clueId]` — if either lookup yields
`undefined` the next property access throws, modelled by `none`. Otherwise:
`showing === null` displays the question and sets `showing = 'question'`;
`showing === 'question'` displays the answer and sets `showing = 'answer'`;
`showing === 'answer'` returns with no display. The result pairs the updated
`categories` array with the displayed text (`none` = nothing displayed). -/
def handleClick (categoryId clueId : Nat) (categories : List Category) :
    Option (List Category × Option String) :=
  match categories[categoryId]? with
  | none => none
  | some cat =>
    match cat.clues[clueId]? with
    | none => none
    | some clue =>
      match clue.showing with
      | Showing.hidden =>
        some (categories.set categoryId
                { cat with clues := cat.clues.set clueId { clue with showing := Showing.question } },
              some clue.question)
      | Showing.question =>
        some (categories.set categoryId
                { cat with clues := cat.clues.set clueId { clue with showing := Showing.answer } },
              some clue.answer)
      | Showing.answer => some (categories, none)

/-- The state transformer induced by one click: the updated array on a
normal return, the unchanged array when `handleClick` throws (the throw
happens before any mutation). -/
def step (categoryId clueId : Nat) (categories : List Category) : List Category :=
  match handleClick categoryId clueId categories with
  | none => categories
  | some (next, _) => next

/-- A sequence of clicks applied in order. -/
def clickSeq (clicks : List (Nat × Nat)) (categories : List Category) : List Category :=
  clicks.foldl (fun s c => step c.1 c.2 s) categories

/-- Ordering of the three reveal states: Hidden before Question before
Answer. -/
def rank : Showing → Nat
  | Showing.hidden => 0
  | Showing.question => 1
  | Showing.answer => 2

/-- Writing one clue in place inside the categories array, as the two
mutation branches of `handleClick` do (`clue.showing = ...` mutates the
clue object held at `categories[i].clues[j]`). -/
def setClue (cats : List Category) (i j : Nat) (c : Clue) : List Category :=
  match cats[i]? with
  | none => cats
  | some cat => cats.set i { cat with clues := cat.clues.set j c }

/-- The per-id result of `getCategory`'s loop body against a fetch oracle:
the pushed category on success, `none` when the request rejects or the
clue list is empty. -/
def fetchedCat (fetch : Nat → Option RawCategory) (id : Nat) : Option Category :=
  (fetch id).bind fun resp =>
    (chunkFirst resp.clues).map fun cs =>
      { title := resp.title, clues := cs.map projectClue }

/-! Concrete fixtures used by witnesses and counterexamples. -/

/-- A concrete hidden clue. -/
def demoClue : Clue :=
  { question := "2 plus 2", answer := "4", showing := Showing.hidden }

/-- A one-category, one-clue session. -/
def demoCats : List Category :=
  [{ title := "Math", clues := [demoClue] }]

/-- A raw payload of ten clues (the jservice shape: near-duplicates after
the first five). -/
def demoRaw : RawCategory :=
  { id := 11, title := "Math",
    clues := (List.range 10).map fun k =>
      { id := k, value := 100 * k, question := toString k, answer := toString (k + 1) } }

/-- A raw payload with two clues only. -/
def demoRawSmall : RawCategory :=
  { id := 12, title := "Small",
    clues := [{ id := 0, value := 100, question := "q0", answer := "a0" },
              { id := 1, value := 200, question := "q1", answer := "a1" }] }

/-- A candidate batch of three categories (fewer than `NUM_CATEGORIES`). -/
def demoBatch : List Candidate :=
  [{ id := 11, title := "Math" }, { id := 12, title := "Small" }, { id := 13, title := "Lit" }]

/-- A fetch oracle that answers ids 11, 12 and 13 and rejects everything
else. -/
def demoFetch : Nat → Option RawCategory
  | 11 => some demoRaw
  | 12 => some demoRawSmall
  | 13 => some demoRaw
  | _ => none

/-- A fetch oracle that always answers with the ten-clue payload. -/
def demoFetchAll : Nat → Option RawCategory
  | _ => some demoRaw

/-- An app state before a restart. -/
def demoState : AppState :=
  { categories := demoCats, boardFilled := true, alerts := 0 }

/-- `demoCats` after one click on its only clue. -/
def demoCatsQ : List Category :=
  [{ title := "Math",
     clues := [{ question := "2 plus 2", answer := "4", showing := Showing.question }] }]

/-- A candidate batch of six categories. -/
def demoBatch6 : List Candidate :=
  [{ id := 1, title := "A" }, { id := 2, title := "B" }, { id := 3, title := "C" },
   { id := 4, title := "D" }, { id := 5, title := "E" }, { id := 6, title := "F" }]

/-- A fetch oracle that answers id 11 only and rejects everything else. -/
def demoFetchFail : Nat → Option RawCategory
  | 11 => some demoRaw
  | _ => none

/-- The session produced by a successful six-category acquisition against
`demoBatch6` and `demoFetchAll`. -/
def demoSession : List Category :=
  match getCategoryIds (some demoBatch6) [0, 1, 2, 3, 4, 5] demoFetchAll [] with
  | Except.ok cats => cats
  | Except.error cs => cs

/-! Helper lemmas about the lookup and the in-place clue write. -/

theorem clueAt_eq_some {cats : List Category} {i j : Nat} {clue : Clue}
    (h : clueAt cats i j = some clue) :
    ∃ cat, cats[i]? = some cat ∧ cat.clues[j]? = some clue := by
  unfold clueAt at h
  cases hc : cats[i]? with
  | none => simp [hc] at h
  | some cat =>
    refine ⟨cat, rfl, ?_⟩
    simpa [hc] using h

theorem clueAt_of_lookups {cats : List Category} {i j : Nat} {cat : Category} {clue : Clue}
    (hc : cats[i]? = some cat) (hj : cat.clues[j]? = some clue) :
    clueAt cats i j = some clue := by
  simp [clueAt, hc, hj]

theorem handleClick_of_none {cats : List Category} {i j : Nat}
    (h : clueAt cats i j = none) : handleClick i j cats = none := by
  unfold clueAt at h
  unfold handleClick
  cases hc : cats[i]? with
  | none => rfl
  | some cat =>
    have hj : cat.clues[j]? = none := by simpa [hc] using h
    simp [hj]

theorem handleClick_hidden {cats : List Category} {i j : Nat} {cat : Category} {clue : Clue}
    (hc : cats[i]? = some cat) (hj : cat.clues[j]? = some clue)
    (hs : clue.showing = Showing.hidden) :
    handleClick i j cats =
      some (setClue cats i j { clue with showing := Showing.question }, some clue.question) := by
  unfold handleClick setClue
  simp only [hc, hj, hs]

theorem handleClick_question {cats : List Category} {i j : Nat} {cat : Category} {clue : Clue}
    (hc : cats[i]? = some cat) (hj : cat.clues[j]? = some clue)
    (hs : clue.showing = Showing.question) :
    handleClick i j cats =
      some (setClue cats i j { clue with showing := Showing.answer }, some clue.answer) := by
  unfold handleClick setClue
  simp only [hc, hj, hs]

theorem handleClick_answer {cats : List Category} {i j : Nat} {cat : Category} {clue : Clue}
    (hc : cats[i]? = some cat) (hj : cat.clues[j]? = some clue)
    (hs : clue.showing = Showing.answer) :
    handleClick i j cats = some (cats, none) := by
  unfold handleClick
  simp only [hc, hj, hs]

theorem length_setClue (cats : List Category) (i j : Nat) (c : Clue) :
    (setClue cats i j c).length = cats.length := by
  unfold setClue
  cases cats[i]? <;> simp

theorem title_setClue (cats : List Category) (i j : Nat) (c : Clue) (k : Nat) :
    ((setClue cats i j c)[k]?).map Category.title = (cats[k]?).map Category.title := by
  unfold setClue
  cases hc : cats[i]? with
  | none => rfl
  | some cat =>
    by_cases hk : i = k
    · subst hk
      have hlen : i < cats.length := (List.getElem?_eq_some_iff.mp hc).1
      rw [List.getElem?_set_self hlen, hc]
      simp
    · rw [List.getElem?_set_ne hk]

theorem cluesLength_setClue (cats : List Category) (i j : Nat) (c : Clue) (k : Nat) :
    ((setClue cats i j c)[k]?).map (fun cat => cat.clues.length) =
      (cats[k]?).map (fun cat => cat.clues.length) := by
  unfold setClue
  cases hc : cats[i]? with
  | none => rfl
  | some cat =>
    by_cases hk : i = k
    · subst hk
      have hlen : i < cats.length := (List.getElem?_eq_some_iff.mp hc).1
      rw [List.getElem?_set_self hlen, hc]
      simp
    · rw [List.getElem?_set_ne hk]

theorem clueAt_setClue_self {cats : List Category} {i j : Nat} {cat : Category} {clue : Clue}
    (hc : cats[i]? = some cat) (hj : cat.clues[j]? = some clue) (c : Clue) :
    clueAt (setClue cats i j c) i j = some c := by
  unfold setClue clueAt
  rw [hc]
  have hlen : i < cats.length := (List.getElem?_eq_some_iff.mp hc).1
  rw [List.getElem?_set_self hlen]
  have hjlen : j < cat.clues.length := (List.getElem?_eq_some_iff.mp hj).1
  simp [List.getElem?_set_self hjlen]

theorem clueAt_setClue_ne {cats : List Category} {i j : Nat} (c : Clue) (k l : Nat)
    (hne : k ≠ i ∨ l ≠ j) :
    clueAt (setClue cats i j c) k l = clueAt cats k l := by
  unfold setClue clueAt
  cases hc : cats[i]? with
  | none => rfl
  | some cat =>
    by_cases hk : i = k
    · subst hk
      have hlen : i < cats.length := (List.getElem?_eq_some_iff.mp hc).1
      rw [List.getElem?_set_self hlen, hc]
      have hl : l ≠ j := by
        rcases hne with h | h
        · exact absurd rfl h
        · exact h
      simp [List.getElem?_set_ne (fun h => hl h.symm)]
    · rw [List.getElem?_set_ne hk]

theorem question_clueAt_setClue {cats : List Category} {i j : Nat} {cat : Category}
    {clue : Clue} (hc : cats[i]? = some cat) (hj : cat.clues[j]? = some clue)
    (c : Clue) (hq : c.question = clue.question) (k l : Nat) :
    (clueAt (setClue cats i j c) k l).map Clue.question =
      (clueAt cats k l).map Clue.question := by
  by_cases hk : k = i
  · by_cases hl : l = j
    · subst hk; subst hl
      rw [clueAt_setClue_self hc hj c, clueAt_of_lookups hc hj]
      simp [hq]
    · rw [clueAt_setClue_ne c k l (Or.inr hl)]
  · rw [clueAt_setClue_ne c k l (Or.inl hk)]

theorem step_of_none {cats : List Category} {a b : Nat}
    (h : clueAt cats a b = none) : step a b cats = cats := by
  unfold step; rw [handleClick_of_none h]

theorem step_hidden {cats : List Category} {a b : Nat} {cat : Category} {clue : Clue}
    (hc : cats[a]? = some cat) (hj : cat.clues[b]? = some clue)
    (hs : clue.showing = Showing.hidden) :
    step a b cats = setClue cats a b { clue with showing := Showing.question } := by
  unfold step; rw [handleClick_hidden hc hj hs]

theorem step_question {cats : List Category} {a b : Nat} {cat : Category} {clue : Clue}
    (hc : cats[a]? = some cat) (hj : cat.clues[b]? = some clue)
    (hs : clue.showing = Showing.question) :
    step a b cats = setClue cats a b { clue with showing := Showing.answer } := by
  unfold step; rw [handleClick_question hc hj hs]

theorem step_answer {cats : List Category} {a b : Nat} {cat : Category} {clue : Clue}
    (hc : cats[a]? = some cat) (hj : cat.clues[b]? = some clue)
    (hs : clue.showing = Showing.answer) :
    step a b cats = cats := by
  unfold step; rw [handleClick_answer hc hj hs]

theorem step_clueAt_mono (a b i j : Nat) (cats : List Category) (clue : Clue)
    (h : clueAt cats i j = some clue) :
    ∃ c, clueAt (step a b cats) i j = some c ∧
      rank clue.showing ≤ rank c.showing ∧
      c.question = clue.question ∧ c.answer = clue.answer ∧
      (clue.showing = Showing.answer → c = clue) := by
  cases hab : clueAt cats a b with
  | none =>
    rw [step_of_none hab, h]
    exact ⟨clue, rfl, le_refl _, rfl, rfl, fun _ => rfl⟩
  | some clueAB =>
    obtain ⟨catAB, hcAB, hjAB⟩ := clueAt_eq_some hab
    cases hs : clueAB.showing with
    | hidden =>
      rw [step_hidden hcAB hjAB hs]
      by_cases hij : i = a ∧ j = b
      · obtain ⟨rfl, rfl⟩ := hij
        have hsame : clue = clueAB := by
          rw [h] at hab; exact Option.some.inj hab
        subst hsame
        refine ⟨{ clue with showing := Showing.question },
          clueAt_setClue_self hcAB hjAB _, ?_, rfl, rfl, fun habs => ?_⟩
        · rw [hs]; exact Nat.le_of_lt (by simp [rank])
        · rw [habs] at hs; cases hs
      · have hne : i ≠ a ∨ j ≠ b := by tauto
        rw [clueAt_setClue_ne _ i j hne, h]
        exact ⟨clue, rfl, le_refl _, rfl, rfl, fun _ => rfl⟩
    | question =>
      rw [step_question hcAB hjAB hs]
      by_cases hij : i = a ∧ j = b
      · obtain ⟨rfl, rfl⟩ := hij
        have hsame : clue = clueAB := by
          rw [h] at hab; exact Option.some.inj hab
        subst hsame
        refine ⟨{ clue with showing := Showing.answer },
          clueAt_setClue_self hcAB hjAB _, ?_, rfl, rfl, fun habs => ?_⟩
        · rw [hs]; exact Nat.le_of_lt (by simp [rank])
        · rw [habs] at hs; cases hs
      · have hne : i ≠ a ∨ j ≠ b := by tauto
        rw [clueAt_setClue_ne _ i j hne, h]
        exact ⟨clue, rfl, le_refl _, rfl, rfl, fun _ => rfl⟩
    | answer =>
      rw [step_answer hcAB hjAB hs, h]
      exact ⟨clue, rfl, le_refl _, rfl, rfl, fun _ => rfl⟩

theorem iterate_step_fix {cats : List Category} {i j : Nat} {c : Clue}
    (h : clueAt cats i j = some c) (hs : c.showing = Showing.answer) :
    ∀ k, (step i j)^[k] cats = cats := by
  intro k
  obtain ⟨cat, hc, hj⟩ := clueAt_eq_some h
  induction k with
  | zero => rfl
  | succ k ih => rw [Function.iterate_succ_apply, step_answer hc hj hs, ih]

theorem answer_clueAt_setClue {cats : List Category} {i j : Nat} {cat : Category}
    {clue : Clue} (hc : cats[i]? = some cat) (hj : cat.clues[j]? = some clue)
    (c : Clue) (ha : c.answer = clue.answer) (k l : Nat) :
    (clueAt (setClue cats i j c) k l).map Clue.answer =
      (clueAt cats k l).map Clue.answer := by
  by_cases hk : k = i
  · by_cases hl : l = j
    · subst hk; subst hl
      rw [clueAt_setClue_self hc hj c, clueAt_of_lookups hc hj]
      simp [ha]
    · rw [clueAt_setClue_ne c k l (Or.inr hl)]
  · rw [clueAt_setClue_ne c k l (Or.inl hk)]

/-! Helper lemmas about the acquisition pipeline. -/

theorem chunkFirst_eq_some {clues cs : List RawClue}
    (h : chunkFirst clues = some cs) : cs = clues.take NUM_CLUES ∧ clues ≠ [] := by
  unfold chunkFirst at h
  by_cases he : clues.isEmpty
  · simp [he] at h
  · simp only [he, if_false] at h
    exact ⟨(Option.some.inj h).symm, fun hnil => he (by simp [hnil])⟩

theorem fetchedCat_eq_some {fetch : Nat → Option RawCategory} {id : Nat}
    {resp : RawCategory} {cs : List RawClue}
    (hf : fetch id = some resp) (hch : chunkFirst resp.clues = some cs) :
    fetchedCat fetch id = some { title := resp.title, clues := cs.map projectClue } := by
  simp [fetchedCat, hf, hch]

theorem getCategory_ok_of_all_some (fetch : Nat → Option RawCategory) :
    ∀ (ids : List Nat) (acc : List Category),
      (∀ id ∈ ids, (fetchedCat fetch id).isSome) →
      ∃ newCats, getCategory fetch ids acc = Except.ok (acc ++ newCats) ∧
        newCats.length = ids.length ∧
        ∀ (k id : Nat), ids[k]? = some id → newCats[k]? = fetchedCat fetch id := by
  intro ids
  induction ids with
  | nil =>
    intro acc _
    exact ⟨[], by simp [getCategory], rfl, fun k id hk => by simp at hk⟩
  | cons id rest ih =>
    intro acc h
    have hid : (fetchedCat fetch id).isSome := h id (List.mem_cons_self id rest)
    cases hf : fetch id with
    | none => simp [fetchedCat, hf] at hid
    | some resp =>
      cases hch : chunkFirst resp.clues with
      | none => simp [fetchedCat, hf, hch] at hid
      | some cs =>
        obtain ⟨newCats, heq, hlen, hidx⟩ :=
          ih (acc ++ [{ title := resp.title, clues := cs.map projectClue }])
            (fun x hx => h x (List.mem_cons_of_mem id hx))
        refine ⟨{ title := resp.title, clues := cs.map projectClue } :: newCats, ?_, ?_, ?_⟩
        · simp only [getCategory, hf, hch]
          rw [heq, List.append_assoc]
          rfl
        · simp [hlen]
        · intro k id' hk
          cases k with
          | zero =>
            have : id = id' := by simpa using hk
            subst this
            simpa using (fetchedCat_eq_some hf hch).symm
          | succ k =>
            have hk' : rest[k]? = some id' := by simpa using hk
            simpa using hidx k id' hk'

theorem getCategory_error_after (fetch : Nat → Option RawCategory) :
    ∀ (good : List Nat) (acc : List Category) (bad : Nat) (rest : List Nat),
      (∀ id ∈ good, (fetchedCat fetch id).isSome) →
      fetchedCat fetch bad = none →
      ∃ newCats, getCategory fetch (good ++ bad :: rest) acc = Except.error (acc ++ newCats) ∧
        newCats.length = good.length ∧
        ∀ (k id : Nat), good[k]? = some id → newCats[k]? = fetchedCat fetch id := by
  intro good
  induction good with
  | nil =>
    intro acc bad rest _ hbad
    refine ⟨[], ?_, rfl, fun k id hk => by simp at hk⟩
    rw [List.nil_append, List.append_nil]
    cases hf : fetch bad with
    | none => simp [getCategory, hf]
    | some resp =>
      cases hch : chunkFirst resp.clues with
      | none => simp [getCategory, hf, hch]
      | some cs =>
        rw [fetchedCat_eq_some hf hch] at hbad
        cases hbad
  | cons id good ih =>
    intro acc bad rest h hbad
    have hid : (fetchedCat fetch id).isSome := h id (List.mem_cons_self id good)
    cases hf : fetch id with
    | none => simp [fetchedCat, hf] at hid
    | some resp =>
      cases hch : chunkFirst resp.clues with
      | none => simp [fetchedCat, hf, hch] at hid
      | some cs =>
        obtain ⟨newCats, heq, hlen, hidx⟩ :=
          ih (acc ++ [{ title := resp.title, clues := cs.map projectClue }]) bad rest
            (fun x hx => h x (List.mem_cons_of_mem id hx)) hbad
        refine ⟨{ title := resp.title, clues := cs.map projectClue } :: newCats, ?_, ?_, ?_⟩
        · show getCategory fetch ((id :: good) ++ bad :: rest) acc = _
          rw [List.cons_append]
          simp only [getCategory, hf, hch]
          rw [heq, List.append_assoc]
          rfl
        · simp [hlen]
        · intro k id' hk
          cases k with
          | zero =>
            have : id = id' := by simpa using hk
            subst this
            simpa using (fetchedCat_eq_some hf hch).symm
          | succ k =>
            have hk' : good[k]? = some id' := by simpa using hk
            simpa using hidx k id' hk'

theorem getCategory_ok_shape (fetch : Nat → Option RawCategory)
    (hclues : ∀ id resp, fetch id = some resp → NUM_CLUES ≤ resp.clues.length) :
    ∀ (ids : List Nat) (acc cats : List Category),
      getCategory fetch ids acc = Except.ok cats →
      cats.length = acc.length + ids.length ∧
      (∀ cat ∈ cats, cat ∈ acc ∨ cat.clues.length = NUM_CLUES) := by
  intro ids
  induction ids with
  | nil =>
    intro acc cats h
    simp only [getCategory] at h
    have : acc = cats := Except.ok.inj h
    subst this
    exact ⟨by simp, fun cat hc => Or.inl hc⟩
  | cons id rest ih =>
    intro acc cats h
    cases hf : fetch id with
    | none => simp [getCategory, hf] at h
    | some resp =>
      cases hch : chunkFirst resp.clues with
      | none => simp [getCategory, hf, hch] at h
      | some cs =>
        simp only [getCategory, hf, hch] at h
        obtain ⟨hlen, hmem⟩ :=
          ih (acc ++ [{ title := resp.title, clues := cs.map projectClue }]) cats h
        constructor
        · simp only [List.length_append, List.length_cons, List.length_nil] at hlen ⊢
          omega
        · intro cat hcat
          rcases hmem cat hcat with hin | h5
          · rcases List.mem_append.mp hin with ha | hb
            · exact Or.inl ha
            · have hcat0 : cat = { title := resp.title, clues := cs.map projectClue } := by
                simpa using hb
              subst hcat0
              right
              obtain ⟨hcs, -⟩ := chunkFirst_eq_some hch
              subst hcs
              simp only [List.length_map, List.length_take]
              exact Nat.min_eq_left (hclues id resp hf)
          · exact Or.inr h5

theorem sampleSize_length {batch : List Candidate} {pick : List Nat}
    (h : ∀ i ∈ pick, i < batch.length) :
    (sampleSize batch pick).length = pick.length := by
  induction pick with
  | nil => rfl
  | cons p ps ih =>
    have hp : p < batch.length := h p (List.mem_cons_self p ps)
    have ih' := ih (fun i hi => h i (List.mem_cons_of_mem p hi))
    simp only [sampleSize, List.filterMap_cons, List.getElem?_eq_getElem hp] at ih' ⊢
    simp [ih']

theorem sampleSize_map_id (batch : List Candidate) (pick : List Nat) :
    (sampleSize batch pick).map (fun c => c.id) =
      pick.filterMap (fun i => (batch.map (fun c => c.id))[i]?) := by
  unfold sampleSize
  rw [List.map_filterMap]
  congr 1
  funext i
  rw [List.getElem?_map]

theorem nodup_filterMap_getElem {α : Type} {l : List α} {pick : List Nat}
    (hl : l.Nodup) (hp : pick.Nodup) (hr : ∀ i ∈ pick, i < l.length) :
    (pick.filterMap (fun i => l[i]?)).Nodup := by
  induction pick with
  | nil => simp
  | cons p ps ih =>
    have hplt : p < l.length := hr p (List.mem_cons_self p ps)
    have hps : ps.Nodup := (List.nodup_cons.mp hp).2
    have hpnot : p ∉ ps := (List.nodup_cons.mp hp).1
    simp only [List.filterMap_cons, List.getElem?_eq_getElem hplt]
    rw [List.nodup_cons]
    refine ⟨?_, ih hps (fun i hi => hr i (List.mem_cons_of_mem p hi))⟩
    intro hmem
    obtain ⟨i, hips, hieq⟩ := List.mem_filterMap.mp hmem
    have hilt : i < l.length := hr i (List.mem_cons_of_mem p hips)
    rw [List.getElem?_eq_getElem hilt] at hieq
    have heq : l[i] = l[p] := Option.some.inj hieq
    have : i = p := (hl.getElem_inj_iff).mp heq
    exact hpnot (this ▸ hips)

/-! Claim theorems. -/

/-- C2: for every valid address, `handleClick` follows the three-state
reveal law: at Hidden it displays the addressed clue's question text and
moves its showing to Question; at Question it displays the answer text and
moves showing to Answer; at Answer it returns with no content and leaves the
state unchanged. -/
theorem handleClick_reveal_law (cats : List Category) (i j : Nat) (clue : Clue)
    (h : clueAt cats i j = some clue) :
    (clue.showing = Showing.hidden →
      ∃ next, handleClick i j cats = some (next, some clue.question) ∧
        clueAt next i j = some { clue with showing := Showing.question }) ∧
    (clue.showing = Showing.question →
      ∃ next, handleClick i j cats = some (next, some clue.answer) ∧
        clueAt next i j = some { clue with showing := Showing.answer }) ∧
    (clue.showing = Showing.answer →
      handleClick i j cats = some (cats, none)) := by
  obtain ⟨cat, hc, hj⟩ := clueAt_eq_some h
  refine ⟨fun hs => ?_, fun hs => ?_, fun hs => ?_⟩
  · exact ⟨_, handleClick_hidden hc hj hs, clueAt_setClue_self hc hj _⟩
  · exact ⟨_, handleClick_question hc hj hs, clueAt_setClue_self hc hj _⟩
  · exact handleClick_answer hc hj hs

/-- Witness for C2 at the concrete one-clue session. -/
theorem handleClick_reveal_law_witness :
    clueAt demoCats 0 0 = some demoClue ∧
    ((demoClue.showing = Showing.hidden →
      ∃ next, handleClick 0 0 demoCats = some (next, some demoClue.question) ∧
        clueAt next 0 0 = some { demoClue with showing := Showing.question }) ∧
     (demoClue.showing = Showing.question →
      ∃ next, handleClick 0 0 demoCats = some (next, some demoClue.answer) ∧
        clueAt next 0 0 = some { demoClue with showing := Showing.answer }) ∧
     (demoClue.showing = Showing.answer →
      handleClick 0 0 demoCats = some (demoCats, none))) :=
  ⟨rfl, handleClick_reveal_law demoCats 0 0 demoClue rfl⟩

/-- C4 (amended): calling `handleClick` with an out-of-range address is not
a normal no-op return: the clue lookup yields `undefined` and the next
property access throws a `TypeError` (modelled by `none`); the throw happens
before any mutation, so the categories state itself is left unchanged. -/
theorem handleClick_out_of_range (cats : List Category) (i j : Nat)
    (h : clueAt cats i j = none) :
    handleClick i j cats = none ∧ step i j cats = cats :=
  ⟨handleClick_of_none h, step_of_none h⟩

/-- Witness for C4 (amended) at a concrete out-of-range address. -/
theorem handleClick_out_of_range_witness :
    clueAt demoCats 1 0 = none ∧
    (handleClick 1 0 demoCats = none ∧ step 1 0 demoCats = demoCats) :=
  ⟨rfl, handleClick_out_of_range demoCats 1 0 rfl⟩

/-- C4 counterexample: on the one-category session `demoCats`, clicking
category index 1 does not return normally — `categories[1]` is `undefined`
and reading `.clues` off it throws, modelled by the `none` result — so the
claim that an out-of-range reveal raises no error fails. -/
theorem handleClick_out_of_range_counterexample :
    handleClick 1 0 demoCats = none := rfl

/-- C9: a normally-returning `handleClick` call mutates at most the
`showing` field of the addressed clue: the category count, every category
title, every category's clue count, every clue's question and answer text,
and every clue at a different address are unchanged. -/
theorem handleClick_frame (cats next : List Category) (i j : Nat) (disp : Option String)
    (h : handleClick i j cats = some (next, disp)) :
    next.length = cats.length ∧
    (∀ k : Nat, (next[k]?).map Category.title = (cats[k]?).map Category.title) ∧
    (∀ k : Nat, (next[k]?).map (fun (cat : Category) => cat.clues.length) =
            (cats[k]?).map (fun (cat : Category) => cat.clues.length)) ∧
    (∀ k l : Nat, (clueAt next k l).map Clue.question = (clueAt cats k l).map Clue.question) ∧
    (∀ k l : Nat, (clueAt next k l).map Clue.answer = (clueAt cats k l).map Clue.answer) ∧
    (∀ k l : Nat, (k ≠ i ∨ l ≠ j) → clueAt next k l = clueAt cats k l) := by
  cases hca : clueAt cats i j with
  | none => rw [handleClick_of_none hca] at h; cases h
  | some clue =>
    obtain ⟨cat, hc, hj⟩ := clueAt_eq_some hca
    cases hs : clue.showing with
    | hidden =>
      rw [handleClick_hidden hc hj hs] at h
      simp only [Option.some.injEq, Prod.mk.injEq] at h
      obtain ⟨h1, -⟩ := h
      subst h1
      exact ⟨length_setClue cats i j _,
        fun k => title_setClue cats i j _ k,
        fun k => cluesLength_setClue cats i j _ k,
        fun k l => question_clueAt_setClue hc hj { clue with showing := Showing.question } rfl k l,
        fun k l => answer_clueAt_setClue hc hj { clue with showing := Showing.question } rfl k l,
        fun k l hne => clueAt_setClue_ne _ k l hne⟩
    | question =>
      rw [handleClick_question hc hj hs] at h
      simp only [Option.some.injEq, Prod.mk.injEq] at h
      obtain ⟨h1, -⟩ := h
      subst h1
      exact ⟨length_setClue cats i j _,
        fun k => title_setClue cats i j _ k,
        fun k => cluesLength_setClue cats i j _ k,
        fun k l => question_clueAt_setClue hc hj { clue with showing := Showing.answer } rfl k l,
        fun k l => answer_clueAt_setClue hc hj { clue with showing := Showing.answer } rfl k l,
        fun k l hne => clueAt_setClue_ne _ k l hne⟩
    | answer =>
      rw [handleClick_answer hc hj hs] at h
      simp only [Option.some.injEq, Prod.mk.injEq] at h
      obtain ⟨h1, -⟩ := h
      subst h1
      exact ⟨rfl, fun k => rfl, fun k => rfl, fun k l => rfl, fun k l => rfl,
        fun k l hne => rfl⟩

/-- Witness for C9 at the concrete one-clue session. -/
theorem handleClick_frame_witness :
    handleClick 0 0 demoCats = some (demoCatsQ, some "2 plus 2") ∧
    (demoCatsQ.length = demoCats.length ∧
    (∀ k : Nat, (demoCatsQ[k]?).map Category.title = (demoCats[k]?).map Category.title) ∧
    (∀ k : Nat, (demoCatsQ[k]?).map (fun (cat : Category) => cat.clues.length) =
            (demoCats[k]?).map (fun (cat : Category) => cat.clues.length)) ∧
    (∀ k l : Nat, (clueAt demoCatsQ k l).map Clue.question =
              (clueAt demoCats k l).map Clue.question) ∧
    (∀ k l : Nat, (clueAt demoCatsQ k l).map Clue.answer =
              (clueAt demoCats k l).map Clue.answer) ∧
    (∀ k l : Nat, (k ≠ 0 ∨ l ≠ 0) → clueAt demoCatsQ k l = clueAt demoCats k l)) :=
  ⟨rfl, handleClick_frame demoCats demoCatsQ 0 0 (some "2 plus 2") rfl⟩

/-- C8: along any sequence of clicks, each clue's `showing` only moves
forward in the order Hidden, Question, Answer (its `rank` never decreases),
and once it is Answer it stays Answer (and the clue is untouched). -/
theorem showing_monotone (clicks : List (Nat × Nat)) (cats : List Category)
    (i j : Nat) (clue : Clue) (h : clueAt cats i j = some clue) :
    ∃ c, clueAt (clickSeq clicks cats) i j = some c ∧
      rank clue.showing ≤ rank c.showing ∧
      (clue.showing = Showing.answer → c = clue) := by
  induction clicks generalizing cats clue with
  | nil => exact ⟨clue, h, le_refl _, fun _ => rfl⟩
  | cons hd tl ih =>
    obtain ⟨c1, h1, hr1, -, -, habs1⟩ := step_clueAt_mono hd.1 hd.2 i j cats clue h
    obtain ⟨c2, h2, hr2, habs2⟩ := ih (step hd.1 hd.2 cats) c1 h1
    refine ⟨c2, by simpa [clickSeq] using h2, le_trans hr1 hr2, fun hans => ?_⟩
    have hc1 : c1 = clue := habs1 hans
    have hc2 : c2 = c1 := habs2 (by rw [hc1, hans])
    rw [hc2, hc1]

/-- Witness for C8: three clicks on the one-clue session. -/
theorem showing_monotone_witness :
    clueAt demoCats 0 0 = some demoClue ∧
    (∃ c, clueAt (clickSeq [(0, 0), (0, 0), (0, 0)] demoCats) 0 0 = some c ∧
      rank demoClue.showing ≤ rank c.showing ∧
      (demoClue.showing = Showing.answer → c = demoClue)) :=
  ⟨rfl, showing_monotone [(0, 0), (0, 0), (0, 0)] demoCats 0 0 demoClue rfl⟩

/-- C10: starting from a Hidden clue at a valid address, n clicks on that
address (n ≥ 2) leave the categories state exactly where two clicks leave
it: every click after the second is absorbed. -/
theorem reveal_saturates (cats : List Category) (i j : Nat) (clue : Clue)
    (h : clueAt cats i j = some clue) (hh : clue.showing = Showing.hidden)
    (n : Nat) (hn : 2 ≤ n) :
    (step i j)^[n] cats = (step i j)^[2] cats := by
  obtain ⟨cat, hc, hj⟩ := clueAt_eq_some h
  have h1 : step i j cats = setClue cats i j { clue with showing := Showing.question } :=
    step_hidden hc hj hh
  have h2 : clueAt (step i j cats) i j = some { clue with showing := Showing.question } := by
    rw [h1]; exact clueAt_setClue_self hc hj _
  obtain ⟨cat1, hc1, hj1⟩ := clueAt_eq_some h2
  have h3 : step i j (step i j cats) =
      setClue (step i j cats) i j { clue with showing := Showing.answer } :=
    @step_question (step i j cats) i j cat1 { clue with showing := Showing.question } hc1 hj1 rfl
  have h4 : clueAt ((step i j)^[2] cats) i j = some { clue with showing := Showing.answer } := by
    rw [show ((step i j)^[2] cats) = step i j (step i j cats) by
      rw [Function.iterate_succ_apply, Function.iterate_succ_apply, Function.iterate_zero_apply]]
    rw [h3]; exact clueAt_setClue_self hc1 hj1 _
  obtain ⟨k, rfl⟩ : ∃ k, n = k + 2 := ⟨n - 2, by omega⟩
  rw [Function.iterate_add_apply]
  exact iterate_step_fix h4 rfl k

/-- Witness for C10: three clicks equal two clicks on the one-clue
session. -/
theorem reveal_saturates_witness :
    clueAt demoCats 0 0 = some demoClue ∧ demoClue.showing = Showing.hidden ∧
    (2 : Nat) ≤ 3 ∧ (step 0 0)^[3] demoCats = (step 0 0)^[2] demoCats :=
  ⟨rfl, rfl, by omega, reveal_saturates demoCats 0 0 demoClue rfl rfl 3 (by omega)⟩

/-- C1 (amended): acquisition success alone does not force the 6-by-5
board shape (see the counterexample); it does as soon as the candidate
batch has at least NUM_CATEGORIES entries and every payload the source
serves carries at least NUM_CLUES clues: then a successful
`getCategoryIds` run ends with exactly NUM_CATEGORIES categories of
NUM_CLUES clues each, and every address (k, l) with k < NUM_CATEGORIES and
l < NUM_CLUES resolves to a clue. -/
theorem session_shape (candidates : Option (List Candidate)) (pick : List Nat)
    (fetch : Nat → Option RawCategory) (batch : List Candidate) (cats : List Category)
    (hc : candidates = some batch)
    (hpick : ValidPick pick batch.length NUM_CATEGORIES)
    (hbatch : NUM_CATEGORIES ≤ batch.length)
    (hclues : ∀ id resp, fetch id = some resp → NUM_CLUES ≤ resp.clues.length)
    (hok : getCategoryIds candidates pick fetch [] = Except.ok cats) :
    cats.length = NUM_CATEGORIES ∧
    (∀ cat ∈ cats, cat.clues.length = NUM_CLUES) ∧
    (∀ k l : Nat, k < NUM_CATEGORIES → l < NUM_CLUES → (clueAt cats k l).isSome) := by
  subst hc
  simp only [getCategoryIds] at hok
  obtain ⟨hnodup, hrange, hplen⟩ := hpick
  have hids : ((sampleSize batch pick).map (fun c => c.id)).length = NUM_CATEGORIES := by
    rw [List.length_map, sampleSize_length hrange, hplen, Nat.min_eq_left hbatch]
  obtain ⟨hlen, hmem⟩ := getCategory_ok_shape fetch hclues _ [] cats hok
  have hcats : cats.length = NUM_CATEGORIES := by
    rw [hlen, hids]
    simp
  refine ⟨hcats, ?_, ?_⟩
  · intro cat hcat
    rcases hmem cat hcat with hin | h5
    · simp at hin
    · exact h5
  · intro k l hk hl
    have hklt : k < cats.length := by rw [hcats]; exact hk
    have hcatk : cats[k]? = some cats[k] := List.getElem?_eq_getElem hklt
    have hckmem : cats[k] ∈ cats := List.getElem?_mem hcatk
    have h5 : (cats[k]).clues.length = NUM_CLUES := by
      rcases hmem _ hckmem with hin | h5
      · simp at hin
      · exact h5
    have hllt : l < (cats[k]).clues.length := by rw [h5]; exact hl
    rw [clueAt, hcatk]
    simp [List.getElem?_eq_getElem hllt]

/-- Witness for C1 (amended): a full six-category acquisition against a
six-candidate batch and a ten-clue-per-payload source. -/
theorem session_shape_witness :
    ValidPick [0, 1, 2, 3, 4, 5] demoBatch6.length NUM_CATEGORIES ∧
    NUM_CATEGORIES ≤ demoBatch6.length ∧
    getCategoryIds (some demoBatch6) [0, 1, 2, 3, 4, 5] demoFetchAll [] =
      Except.ok demoSession ∧
    (demoSession.length = NUM_CATEGORIES ∧
     (∀ cat ∈ demoSession, cat.clues.length = NUM_CLUES) ∧
     (∀ k l : Nat, k < NUM_CATEGORIES → l < NUM_CLUES → (clueAt demoSession k l).isSome)) :=
  ⟨⟨by decide, by decide, by decide⟩, by decide, rfl,
   session_shape (some demoBatch6) [0, 1, 2, 3, 4, 5] demoFetchAll demoBatch6 demoSession
     rfl ⟨by decide, by decide, by decide⟩ (by decide)
     (fun id resp h => by
       have hr : demoRaw = resp := Option.some.inj h
       subst hr
       decide)
     rfl⟩

/-- C1 counterexample: a run whose network calls all succeed, drawn from a
source that returns only three candidates (the lodash sample then takes all
three positions) with one two-clue payload, completes successfully with 3
categories, one of which has 2 clues — refuting the unconditional 6-by-5
claim. -/
theorem session_shape_counterexample :
    ValidPick [0, 1, 2] demoBatch.length NUM_CATEGORIES ∧
    ∃ cats, getCategoryIds (some demoBatch) [0, 1, 2] demoFetch [] = Except.ok cats ∧
      cats.length ≠ NUM_CATEGORIES ∧ ∃ cat ∈ cats, cat.clues.length ≠ NUM_CLUES := by
  refine ⟨⟨by decide, by decide, by decide⟩, _, rfl, by decide, by decide⟩

/-- C3 (amended): when a per-category fetch fails during a restart, no
session is rendered (the board stays unfilled) and the alert failure path
fires exactly once; but the global `categories` array is NOT left at the
prior/empty state: it retains exactly the categories pushed by the fetches
that succeeded before the failure, in order. -/
theorem setupAndStart_failure (candidates : Option (List Candidate)) (pick : List Nat)
    (fetch : Nat → Option RawCategory) (s : AppState) (batch : List Candidate)
    (good : List Nat) (bad : Nat) (rest : List Nat)
    (hc : candidates = some batch)
    (hids : (sampleSize batch pick).map (fun c => c.id) = good ++ bad :: rest)
    (hgood : ∀ id ∈ good, (fetchedCat fetch id).isSome)
    (hbad : fetchedCat fetch bad = none) :
    ∃ newCats,
      setupAndStart candidates pick fetch s =
        { categories := newCats, boardFilled := false, alerts := s.alerts + 1 } ∧
      newCats.length = good.length ∧
      ∀ (k id : Nat), good[k]? = some id → newCats[k]? = fetchedCat fetch id := by
  subst hc
  obtain ⟨newCats, herr, hlen, hidx⟩ :=
    getCategory_error_after fetch good [] bad rest hgood hbad
  refine ⟨newCats, ?_, hlen, hidx⟩
  unfold setupAndStart
  simp only [getCategoryIds]
  rw [hids, herr]
  simp

/-- Witness for C3 (amended): id 11 succeeds, id 12 fails. -/
theorem setupAndStart_failure_witness :
    (sampleSize demoBatch [0, 1, 2]).map (fun c => c.id) = [11] ++ 12 :: [13] ∧
    (∀ id ∈ ([11] : List Nat), (fetchedCat demoFetchFail id).isSome) ∧
    fetchedCat demoFetchFail 12 = none ∧
    (∃ newCats,
      setupAndStart (some demoBatch) [0, 1, 2] demoFetchFail demoState =
        { categories := newCats, boardFilled := false, alerts := demoState.alerts + 1 } ∧
      newCats.length = ([11] : List Nat).length ∧
      ∀ (k id : Nat), ([11] : List Nat)[k]? = some id →
        newCats[k]? = fetchedCat demoFetchFail id) :=
  ⟨by decide, by decide, by decide,
   setupAndStart_failure (some demoBatch) [0, 1, 2] demoFetchFail demoState demoBatch
     [11] 12 [13] rfl (by decide) (by decide) (by decide)⟩

/-- C3 counterexample: first fetch succeeds, second fails — after the
failed restart the board is unfilled, but the global `categories` array
holds one category: the prior empty state is not preserved, the partial
accumulation is observable. -/
theorem setupAndStart_failure_counterexample :
    (setupAndStart (some demoBatch) [0, 1, 2] demoFetchFail demoState).boardFilled = false ∧
    (setupAndStart (some demoBatch) [0, 1, 2] demoFetchFail demoState).categories.length = 1 :=
  ⟨rfl, rfl⟩

/-- C5: the per-id body of `getCategory` deterministically takes the first
NUM_CLUES clues of the payload in their original order — `_.chunk(...)[0]`,
not a random sample — and projects each raw clue to exactly
`{question, answer, showing: Hidden}` (all other payload fields dropped);
for a payload of at least NUM_CLUES clues (the jservice shape has 10)
exactly NUM_CLUES survive. -/
theorem getCategory_takes_first_clues (fetch : Nat → Option RawCategory)
    (id : Nat) (resp : RawCategory) (acc : List Category)
    (hf : fetch id = some resp) (hlen : NUM_CLUES ≤ resp.clues.length) :
    getCategory fetch [id] acc = Except.ok (acc ++
      [{ title := resp.title,
         clues := (resp.clues.take NUM_CLUES).map (fun c =>
           { question := c.question, answer := c.answer, showing := Showing.hidden }) }]) ∧
    (resp.clues.take NUM_CLUES).length = NUM_CLUES := by
  have hne : ¬ resp.clues.isEmpty = true := by
    rw [List.isEmpty_iff]
    intro h0
    rw [h0] at hlen
    simp [NUM_CLUES] at hlen
  have hch : chunkFirst resp.clues = some (resp.clues.take NUM_CLUES) := by
    unfold chunkFirst
    simp [hne]
  constructor
  · simp only [getCategory, hf, hch]
    rfl
  · rw [List.length_take]
    exact Nat.min_eq_left hlen

/-- Witness for C5: the ten-clue payload `demoRaw`. -/
theorem getCategory_takes_first_clues_witness :
    demoFetch 11 = some demoRaw ∧ NUM_CLUES ≤ demoRaw.clues.length ∧
    (getCategory demoFetch [11] [] = Except.ok ([] ++
      [{ title := demoRaw.title,
         clues := (demoRaw.clues.take NUM_CLUES).map (fun c =>
           { question := c.question, answer := c.answer, showing := Showing.hidden }) }]) ∧
     (demoRaw.clues.take NUM_CLUES).length = NUM_CLUES) :=
  ⟨rfl, by decide, getCategory_takes_first_clues demoFetch 11 demoRaw [] rfl (by decide)⟩

/-- C6 (amended): the id selection rejects when the network call fails,
and a valid lodash draw from a batch yields min(NUM_CATEGORIES, batch size)
ids taken without replacement from the batch — distinct whenever the
batch's ids are distinct, and exactly NUM_CATEGORIES of them when the batch
has at least NUM_CATEGORIES candidates. Contrary to the original claim, a
smaller batch does not make it fail: it yields all of the batch's ids
instead (see the counterexample). -/
theorem selectCategoryIds_spec (candidates : Option (List Candidate)) (pick : List Nat) :
    (candidates = none → selectCategoryIds candidates pick = none) ∧
    (∀ batch : List Candidate, candidates = some batch →
      ValidPick pick batch.length NUM_CATEGORIES →
      ∃ ids, selectCategoryIds candidates pick = some ids ∧
        ids.length = min NUM_CATEGORIES batch.length ∧
        (∀ x ∈ ids, x ∈ batch.map (fun c => c.id)) ∧
        ((batch.map (fun c => c.id)).Nodup → ids.Nodup) ∧
        (NUM_CATEGORIES ≤ batch.length → ids.length = NUM_CATEGORIES)) := by
  constructor
  · intro h; subst h; rfl
  · intro batch hb hpick
    subst hb
    obtain ⟨hnodup, hrange, hplen⟩ := hpick
    refine ⟨(sampleSize batch pick).map (fun c => c.id), by simp [selectCategoryIds], ?_, ?_, ?_, ?_⟩
    · rw [List.length_map, sampleSize_length hrange, hplen]
    · intro x hx
      obtain ⟨c, hcmem, hcid⟩ := List.mem_map.mp hx
      obtain ⟨i, hip, hieq⟩ := List.mem_filterMap.mp hcmem
      rw [← hcid]
      exact List.mem_map_of_mem _ (List.getElem?_mem hieq)
    · intro hids
      rw [sampleSize_map_id]
      refine nodup_filterMap_getElem hids hnodup ?_
      intro i hi
      rw [List.length_map]
      exact hrange i hi
    · intro hge
      rw [List.length_map, sampleSize_length hrange, hplen]
      exact Nat.min_eq_left hge

/-- Witness for C6 (amended): the network-failure direction and a full
draw from the six-candidate batch. -/
theorem selectCategoryIds_spec_witness :
    selectCategoryIds none [0, 1, 2, 3, 4, 5] = none ∧
    ValidPick [0, 1, 2, 3, 4, 5] demoBatch6.length NUM_CATEGORIES ∧
    (∃ ids, selectCategoryIds (some demoBatch6) [0, 1, 2, 3, 4, 5] = some ids ∧
      ids.length = min NUM_CATEGORIES demoBatch6.length ∧
      (∀ x ∈ ids, x ∈ demoBatch6.map (fun c => c.id)) ∧
      ((demoBatch6.map (fun c => c.id)).Nodup → ids.Nodup) ∧
      (NUM_CATEGORIES ≤ demoBatch6.length → ids.length = NUM_CATEGORIES)) :=
  ⟨(selectCategoryIds_spec none [0, 1, 2, 3, 4, 5]).1 rfl,
   ⟨by decide, by decide, by decide⟩,
   (selectCategoryIds_spec (some demoBatch6) [0, 1, 2, 3, 4, 5]).2 demoBatch6 rfl
     ⟨by decide, by decide, by decide⟩⟩

/-- C6 counterexample: with a three-candidate batch (the lodash draw takes
all three positions since 3 < NUM_CATEGORIES) the id selection does not
fail — it resolves with the three ids. -/
theorem selectCategoryIds_counterexample :
    ValidPick [0, 1, 2] demoBatch.length NUM_CATEGORIES ∧
    demoBatch.length < NUM_CATEGORIES ∧
    selectCategoryIds (some demoBatch) [0, 1, 2] = some [11, 12, 13] :=
  ⟨⟨by decide, by decide, by decide⟩, by decide, by decide⟩

/-- C7: the session build walks the selected ids in selection order; when
every per-id fetch succeeds it resolves with one category per id, and the
k-th category of the session is exactly the category fetched for the k-th
selected id. -/
theorem buildSession_order (candidates : Option (List Candidate)) (pick : List Nat)
    (fetch : Nat → Option RawCategory) (batch : List Candidate) (ids : List Nat)
    (hc : candidates = some batch)
    (hids : (sampleSize batch pick).map (fun c => c.id) = ids)
    (hall : ∀ id ∈ ids, (fetchedCat fetch id).isSome) :
    ∃ cats, getCategoryIds candidates pick fetch [] = Except.ok cats ∧
      cats.length = ids.length ∧
      ∀ (k id : Nat), ids[k]? = some id → cats[k]? = fetchedCat fetch id := by
  subst hc
  obtain ⟨newCats, heq, hlen, hidx⟩ := getCategory_ok_of_all_some fetch ids [] hall
  refine ⟨newCats, ?_, hlen, hidx⟩
  simp only [getCategoryIds, hids]
  rw [heq]
  simp

/-- Witness for C7: ids 11 then 12 produce the fetched categories in that
order. -/
theorem buildSession_order_witness :
    (sampleSize demoBatch [0, 1]).map (fun c => c.id) = [11, 12] ∧
    (∀ id ∈ ([11, 12] : List Nat), (fetchedCat demoFetch id).isSome) ∧
    (∃ cats, getCategoryIds (some demoBatch) [0, 1] demoFetch [] = Except.ok cats ∧
      cats.length = ([11, 12] : List Nat).length ∧
      ∀ (k id : Nat), ([11, 12] : List Nat)[k]? = some id →
        cats[k]? = fetchedCat demoFetch id) :=
  ⟨by decide, by decide,
   buildSession_order (some demoBatch) [0, 1] demoFetch demoBatch [11, 12] rfl
     (by decide) (by decide)⟩

end Jeopardy
